import Mathlib

/-!
Verification of the school-watch change-detection pipeline (`watcher.py`).

The Python program is embedded shallowly:

* Pure string manipulation (`strip`, `split`, `splitlines`, `startswith`,
  `replace`, `upper`, ...) is re-implemented character-wise over `List Char`,
  mirroring the Python semantics used by the program.
* External effects are parameters: the HTTP fetch, the HTML parser
  (BeautifulSoup), the SHA-256 digest, `urlparse(...).netloc`, the system
  clock, the environment, and the SMTP transport are inputs to the model.
  A parsed HTML document is modelled as a `Node` forest; a fetch result is
  `Except String String` (error text or response body); the transport is
  `Message → Except String Unit`.
* Python dicts are association lists with first-key lookup and
  replace-or-append assignment, preserving insertion order.
* Uncaught Python exceptions are modelled with `Except` / explicit error
  components that abort the surrounding loop or run.
-/

/-- Python `str.isspace` characters relevant to `strip`/`split`
(space, tab, newline, carriage return, vertical tab, form feed). -/
def isPySpace (c : Char) : Bool :=
  c = ' ' || c = '\t' || c = '\n' || c = '\r' || c = '\u000B' || c = '\u000C'

/-- Python `str.strip()` on a character list. -/
def pyStripL (l : List Char) : List Char :=
  ((l.dropWhile isPySpace).reverse.dropWhile isPySpace).reverse

/-- Python `str.strip()`. -/
def pyStrip (s : String) : String := ⟨pyStripL s.data⟩

/-- Worker for `splitWS`: accumulates the current word (reversed). -/
def splitWSAux : List Char → List Char → List (List Char)
  | [], acc => if acc.isEmpty then [] else [acc.reverse]
  | c :: cs, acc =>
    if isPySpace c then
      if acc.isEmpty then splitWSAux cs [] else acc.reverse :: splitWSAux cs []
    else splitWSAux cs (c :: acc)

/-- Python `str.split()` with no argument: split on runs of whitespace,
dropping empty fields. -/
def splitWS (l : List Char) : List (List Char) := splitWSAux l []

/-- Worker for `splitLinesL`. -/
def splitLinesAux : List Char → List Char → List (List Char)
  | [], acc => [acc.reverse]
  | '\r' :: '\n' :: cs, acc => acc.reverse :: splitLinesAux cs []
  | '\r' :: cs, acc => acc.reverse :: splitLinesAux cs []
  | '\n' :: cs, acc => acc.reverse :: splitLinesAux cs []
  | c :: cs, acc => splitLinesAux cs (c :: acc)

/-- Python `str.splitlines()` restricted to the line breaks that occur in the
pipeline (`\n`, `\r`, `\r\n`); a trailing empty piece may be produced but the
caller filters empty lines away. -/
def splitLinesL (l : List Char) : List (List Char) := splitLinesAux l []

/-- Worker for `splitCommaL`. -/
def splitCommaAux : List Char → List Char → List (List Char)
  | [], acc => [acc.reverse]
  | c :: cs, acc =>
    if c = ',' then acc.reverse :: splitCommaAux cs [] else splitCommaAux cs (c :: acc)

/-- Python `str.split(",")` (empty fields kept). -/
def splitCommaL (l : List Char) : List (List Char) := splitCommaAux l []

/-- Join character-list lines with `\n` (Python `"\n".join`). -/
def joinNL : List (List Char) → List Char
  | [] => []
  | [l] => l
  | l :: ls => l ++ '\n' :: joinNL ls

/-- Join string lines with `\n` (Python `"\n".join`). -/
def joinNLStr : List String → String
  | [] => ""
  | [s] => s
  | s :: rest => s ++ "\n" ++ joinNLStr rest

/-- Python truthiness of an optional string (`None` and `""` are falsy). -/
def pyTruthy : Option String → Bool
  | some s => s ≠ ""
  | none => false

/-- Python `str(cell)` on an optional cell value (`str(None) = "None"`). -/
def cellStr : Option String → String
  | some s => s
  | none => "None"

/-- Python `str.upper()`, character-wise (ASCII, as used for `status`). -/
def pyUpper (s : String) : String := ⟨s.data.map Char.toUpper⟩

/-- First-match lookup in an association list (Python `dict.get`). -/
def lookupKV {α : Type} : List (String × α) → String → Option α
  | [], _ => none
  | (k, v) :: rest, key => if k = key then some v else lookupKV rest key

/-- Python dict assignment `d[k] = v`: replace the value at an existing key,
otherwise append a new entry (insertion order preserved). -/
def dictSet {α : Type} : List (String × α) → String → α → List (String × α)
  | [], k, v => [(k, v)]
  | (k', v') :: rest, k, v =>
    if k' = k then (k', v) :: rest else (k', v') :: dictSet rest k v

/-- One monitored source: `{"name": ..., "url": ...}` from `load_sources`. -/
structure SourceItem where
  name : String
  url  : String
deriving DecidableEq, Repr

/-- One value of `state[url]` in `state.json`: fingerprint (possibly `None`),
timestamp, and optional error text. -/
structure StateEntry where
  fp : Option String
  ts : Int
  error : Option String
deriving DecidableEq, Repr

/-- The persisted state: Python dict from URL to entry. -/
abbrev Store := List (String × StateEntry)

/-- `updates_by_school`: Python dict from school name to list of URLs. -/
abbrev Updates := List (String × List String)

/-- `failures`: list of `(school, url, error)` triples, in append order. -/
abbrev Failures := List (String × String × String)

/-- `school_to_emails`: Python dict from school name to a set of addresses,
modelled as a duplicate-free list in insertion order. -/
abbrev SubsMap := List (String × List String)

/-- `email_to_school_urls[email]`: dict from school to list of URLs. -/
abbrev SchoolMap := List (String × List String)

/-- `email_to_school_urls`: dict from recipient address to its `SchoolMap`. -/
abbrev RecipMap := List (String × SchoolMap)

/-- Python `t.startswith("#")`. -/
def startsHash : List Char → Bool
  | '#' :: _ => true
  | _ => false

/-- Body of `load_sources` on the file's lines: strip each line, skip empty
lines and `#` comments, split on whitespace, skip lines with fewer than two
fields, and keep `(parts[0].strip(), parts[1].strip())`. -/
def loadSourceLines : List String → List SourceItem
  | [] => []
  | ln :: rest =>
    let t := pyStripL ln.data
    if t.isEmpty then loadSourceLines rest
    else if startsHash t then loadSourceLines rest
    else
      match splitWS t with
      | a :: b :: _ => ⟨⟨pyStripL a⟩, ⟨pyStripL b⟩⟩ :: loadSourceLines rest
      | _ => loadSourceLines rest

/-- `load_sources()`: `open(SOURCES_FILE)` raises if the file is missing;
otherwise parse its lines. The file content is the input. -/
def load_sources (fileLines : Option (List String)) : Except String (List SourceItem) :=
  match fileLines with
  | none => Except.error "sources.txt not found"
  | some ls => Except.ok (loadSourceLines ls)

/-- A parsed HTML forest (output of the external BeautifulSoup parser):
either nothing, a text node followed by its siblings, or an element with a
tag, attributes, children and siblings. -/
inductive Node where
  | nilN
  | text (s : String) (sib : Node)
  | elem (tag : String) (attrs : List (String × String)) (children : Node) (sib : Node)
deriving DecidableEq, Repr

/-- `soup(["script", "style", "noscript"])` + `tag.decompose()`: remove every
`script`/`style`/`noscript` element (with its whole subtree) from the forest. -/
def stripBad : Node → Node
  | .nilN => .nilN
  | .text s sib => .text s (stripBad sib)
  | .elem t a cs sib =>
    if t = "script" ∨ t = "style" ∨ t = "noscript" then stripBad sib
    else .elem t a (stripBad cs) (stripBad sib)

/-- The document's text pieces in order (`NavigableString`s), as joined by
`soup.get_text(separator=...)`. Attributes contribute nothing. -/
def pieces : Node → List (List Char)
  | .nilN => []
  | .text s sib => s.data :: pieces sib
  | .elem _ _ cs sib => pieces cs ++ pieces sib

/-- `normalize_html`: drop `script`/`style`/`noscript`, take
`soup.get_text(separator="\n")`, strip every line, drop empty lines, keep the
first 400 lines, and re-join with `\n`. The parsed document is the input. -/
def normalize_html (doc : Node) : String :=
  let text := joinNL (pieces (stripBad doc))
  let lines := ((splitLinesL text).map pyStripL).filter (fun l => ¬ l.isEmpty)
  ⟨joinNL (lines.take 400)⟩

/-- The environment variables read by the mailing code. -/
structure Env where
  smtp_user : Option String
  smtp_pass : Option String
  always_send_summary : Option String
  test_mail_to : Option String
deriving Repr

/-- One e-mail as handed to the SMTP transport: `From`, `To` header, envelope
recipient list (`sendmail`'s second argument), `Subject` and body. -/
structure Message where
  fromAddr : String
  toAddr : String
  rcpt : List String
  subject : String
  body : String
deriving DecidableEq, Repr

/-- `send_email_to(subject, body, to_email)`: raises when `SMTP_USER` or
`SMTP_PASS` is unset or empty; otherwise builds a single-recipient message
and performs one transport call (`sendmail(smtp_user, [to_email], ...)`),
whose failure propagates as an exception. Returns the message sent. -/
def send_email_to (env : Env) (transport : Message → Except String Unit)
    (subject body to_email : String) : Except String Message :=
  if pyTruthy env.smtp_user ∧ pyTruthy env.smtp_pass then
    let u := env.smtp_user.getD ""
    let msg : Message := ⟨u, to_email, [to_email], subject, body⟩
    match transport msg with
    | Except.ok _ => Except.ok msg
    | Except.error e => Except.error e
  else Except.error "Missing SMTP_USER / SMTP_PASS in env"

/-- Subject of the summary mail:
`f"【监控汇总】更新{ok_count}｜失败{fail_count}｜{now_str}"`. -/
def summarySubject (now_str : String) (ok_count fail_count : Nat) : String :=
  s!"【监控汇总】更新{ok_count}｜失败{fail_count}｜{now_str}"

/-- The two body lines for one displayed failure:
`f"{i}. {name}  {url}"` and `f"   {err}"`. -/
def failureLines (p : Nat × String × String × String) : List String :=
  let j := p.1 + 1
  let name := p.2.1
  let url := p.2.2.1
  let err := p.2.2.2
  [s!"{j}. {name}  {url}", s!"   {err}"]

/-- Body of the summary mail, line for line as built in `send_summary_email`. -/
def summaryBody (now_str : String) (ups : Updates) (fails : Failures) : String :=
  let updated_schools := ups.map (fun p => p.1)
  let ok_count := updated_schools.length
  let fail_count := fails.length
  let base := [s!"本次监控汇总（{now_str}）", "",
    s!"- 有更新学校数：{ok_count}", s!"- 抓取失败数：{fail_count}", ""]
  let upLines :=
    if updated_schools.isEmpty then []
    else "【更新学校】" :: updated_schools.map (fun s => s!"- {s}") ++ [""]
  let shown := ((fails.take 10).enum.map failureLines).flatten
  let more :=
    if fails.length > 10 then
      let rest := fails.length - 10
      [s!"... 还有 {rest} 条未展示"]
    else []
  let failLines :=
    if fails.isEmpty then [] else "【失败列表（节选）】" :: shown ++ more ++ [""]
  joinNLStr (base ++ upLines ++ failLines ++
    ["提示：这是验收/健康度汇总邮件，用于确认定时任务与发信链路正常。"])

/-- `send_summary_email(updates_by_school, failures)`: reads
`ALWAYS_SEND_SUMMARY` (default `""`, stripped) and `TEST_MAIL_TO` (`or ""`,
stripped); sends nothing unless the former is exactly `"1"` and the latter is
non-empty; otherwise sends one summary mail to `TEST_MAIL_TO`. Returns the
message sent, if any; an exception from `send_email_to` propagates. -/
def send_summary_email (env : Env) (transport : Message → Except String Unit)
    (now_str : String) (ups : Updates) (fails : Failures) :
    Except String (Option Message) :=
  let always := pyStrip (env.always_send_summary.getD "")
  let test_to := pyStrip (env.test_mail_to.getD "")
  if always ≠ "1" then Except.ok none
  else if test_to = "" then Except.ok none
  else
    let ok_count := ups.length
    let fail_count := fails.length
    match send_email_to env transport (summarySubject now_str ok_count fail_count)
        (summaryBody now_str ups fails) test_to with
    | Except.ok m => Except.ok (some m)
    | Except.error e => Except.error e

/-- A worksheet as read by `openpyxl`: rows of optional cell values
(stringified; an empty cell is `none`). -/
abbrev Workbook := List (List (Option String))

/-- Header map of the first row: `header[str(cell.value).strip()] = idx`
for each cell with a truthy value, `idx` counted from 1. -/
def buildHeader (row : List (Option String)) : List (String × Nat) :=
  row.enum.foldl (fun h p =>
    match p.2 with
    | some s => if s = "" then h else dictSet h (pyStrip s) (p.1 + 1)
    | none => h) []

/-- `school_to_emails.setdefault(s, set()).add(email)`: append the address to
the school's set unless already present. -/
def subsAdd : SubsMap → String → String → SubsMap
  | [], s, em => [(s, [em])]
  | (k, ems) :: rest, s, em =>
    if k = s then (k, if em ∈ ems then ems else ems ++ [em]) :: rest
    else (k, ems) :: subsAdd rest s em

/-- Row loop of `load_subscriptions` given the 1-based column indices of
`email`, `schools` and `status`: skip rows with a falsy email or schools cell,
skip rows whose status is not `ACTIVE` (case-insensitive, stripped), then
split the schools cell on commas (full-width commas normalized) and record
the address under each school. -/
def loadSubsRows (ei si sti : Nat) (rows : List (List (Option String))) : SubsMap :=
  rows.foldl (fun m row =>
    let email := (row.getD (ei - 1) none)
    let schools := (row.getD (si - 1) none)
    let status := (row.getD (sti - 1) none)
    if ¬ pyTruthy email ∨ ¬ pyTruthy schools then m
    else if pyUpper (pyStrip (cellStr status)) ≠ "ACTIVE" then m
    else
      let em := pyStrip (cellStr email)
      let raw := (cellStr schools).data.map (fun c => if c = '，' then ',' else c)
      let school_list := ((splitCommaL raw).map pyStripL).filter (fun l => ¬ l.isEmpty)
      school_list.foldl (fun m s => subsAdd m ⟨s⟩ em) m) []

/-- `load_subscriptions()`: raises when `subscriptions.xlsx` is missing;
raises when a required header column (`email`, `schools`, `status`) is
absent; otherwise builds the school-to-addresses map from the data rows. -/
def load_subscriptions (wb : Option Workbook) : Except String SubsMap :=
  match wb with
  | none => Except.error "Missing subscriptions.xlsx in repo root"
  | some rows =>
    let header := buildHeader (rows.headD [])
    match lookupKV header "email" with
    | none => Except.error "subscriptions.xlsx 缺少表头列：email"
    | some ei =>
      match lookupKV header "schools" with
      | none => Except.error "subscriptions.xlsx 缺少表头列：schools"
      | some si =>
        match lookupKV header "status" with
        | none => Except.error "subscriptions.xlsx 缺少表头列：status"
        | some sti => Except.ok (loadSubsRows ei si sti (rows.drop 1))

/-- One iteration's input for the main loop: the source, the value of
`int(time.time())` at that iteration, and the outcome of the `try` block's
fetch+normalize+fingerprint (error text if any exception was raised). -/
abbrev Iter := SourceItem × Int × Except String String

/-- `updates_by_school.setdefault(name, []).append(url)`. -/
def addUpdate : Updates → String → String → Updates
  | [], n, u => [(n, [u])]
  | (k, us) :: rest, n, u =>
    if k = n then (k, us ++ [u]) :: rest else (k, us) :: addUpdate rest n u

/-- The stored fingerprint for a URL: `state.get(url, {}).get("fp")`. -/
def fpOf (st : Store) (u : String) : Option String :=
  (lookupKV st u).bind (fun e => e.fp)

/-- The URL list recorded for a school: `updates_by_school.get(name, [])`
read off the accumulated dict. -/
def upsGet (ups : Updates) (n : String) : List String :=
  (lookupKV ups n).getD []

/-- One iteration of the main loop over `sources`. On success: emit a change
for the school iff the stored fingerprint is truthy and differs from the
fresh one, then overwrite `state[url]` with the fresh fingerprint and
timestamp. On any exception: append a failure and overwrite `state[url]`
keeping the previous fingerprint value, recording the error. -/
def runStep : Store × Updates × Failures → Iter → Store × Updates × Failures
  | (st, ups, fails), (item, ts, Except.ok f) =>
    let old := fpOf st item.url
    let ups' :=
      if pyTruthy old ∧ old ≠ some f then addUpdate ups item.name item.url else ups
    (dictSet st item.url ⟨some f, ts, none⟩, ups', fails)
  | (st, ups, fails), (item, ts, Except.error e) =>
    (dictSet st item.url ⟨fpOf st item.url, ts, some e⟩, ups,
      fails ++ [(item.name, item.url, e)])

/-- The whole `for item in sources` loop, folded left over the iterations. -/
def runLoop (acc : Store × Updates × Failures) (iters : List Iter) :
    Store × Updates × Failures :=
  iters.foldl runStep acc

/-- `email_to_school_urls.setdefault(em, {}).setdefault(school, []).extend(urls)`
restricted to one school key. -/
def extendSchool : SchoolMap → String → List String → SchoolMap
  | [], s, urls => [(s, urls)]
  | (k, us) :: rest, s, urls =>
    if k = s then (k, us ++ urls) :: rest else (k, us) :: extendSchool rest s urls

/-- `email_to_school_urls.setdefault(em, {}).setdefault(school, []).extend(urls)`. -/
def addRecip : RecipMap → String → String → List String → RecipMap
  | [], em, s, urls => [(em, [(s, urls)])]
  | (k, smap) :: rest, em, s, urls =>
    if k = em then (k, extendSchool smap s urls) :: rest
    else (k, smap) :: addRecip rest em s urls

/-- Building `email_to_school_urls` from the run's updates and the
subscription map: for each changed school, add its URLs under every
subscribed address. -/
def buildRecipMap (ups : Updates) (s2e : SubsMap) : RecipMap :=
  ups.foldl (fun m p =>
    ((lookupKV s2e p.1).getD []).foldl (fun m em => addRecip m em p.1 p.2) m) []

/-- Subject of a per-subscriber mail:
`f"【调剂信息更新提醒】{len(school_map)}所学校栏目有变化"`. -/
def recipSubject (smap : SchoolMap) : String :=
  let n := smap.length
  s!"【调剂信息更新提醒】{n}所学校栏目有变化"

/-- The body lines contributed by one school entry: an empty line (the
school name is interpolated into an empty f-string in the source), then
`f"- {host}\n  {u}"` per URL, then an empty line. -/
def schoolLines (netloc : String → String) (p : String × List String) : List String :=
  let urlLines := p.2.map (fun u =>
    let host := netloc u
    s!"- {host}\n  {u}")
  "" :: urlLines ++ [""]

/-- Body of a per-subscriber mail: greeting line, blank line, the school
blocks, closing hint, joined with `\n` and stripped. -/
def recipBody (netloc : String → String) (now_str : String) (smap : SchoolMap) :
    String :=
  let lines := [s!"检测到你订阅的学校栏目有更新（{now_str}）：", ""] ++
    (smap.map (schoolLines netloc)).flatten ++
    ["提示：请以学校官网为准。若需暂停/退订，请微信联系我。"]
  pyStrip (joinNLStr lines)

/-- The `for em, school_map in email_to_school_urls.items()` send loop:
sends one mail per recipient in order; an exception from `send_email_to`
aborts the loop (remaining recipients are not attempted) and is returned
as the loop's error. Returns the successfully sent messages with the
recipient and school map each was built from. -/
def dispatch (env : Env) (transport : Message → Except String Unit)
    (netloc : String → String) (now_str : String) :
    RecipMap → List (String × SchoolMap × Message) × Option String
  | [] => ([], none)
  | (em, smap) :: rest =>
    match send_email_to env transport (recipSubject smap)
        (recipBody netloc now_str smap) em with
    | Except.ok msg =>
      let r := dispatch env transport netloc now_str rest
      ((em, smap, msg) :: r.1, r.2)
    | Except.error e => ([], some e)

/-- The notification phase of `main` after `save_state`: send the summary
(its exception aborts the phase), return early when there are no updates or
no matched subscribers, otherwise run the per-subscriber send loop. Yields
the summary message (if sent), the per-subscriber messages sent, and the
phase's outcome. -/
def notifyPhase (env : Env) (transport : Message → Except String Unit)
    (netloc : String → String) (now_str : String) (ups : Updates)
    (fails : Failures) (s2e : SubsMap) :
    Option Message × List (String × SchoolMap × Message) × Except String Unit :=
  match send_summary_email env transport now_str ups fails with
  | Except.error e => (none, [], Except.error e)
  | Except.ok summ =>
    if ups.isEmpty then (summ, [], Except.ok ())
    else
      let rmap := buildRecipMap ups s2e
      if rmap.isEmpty then (summ, [], Except.ok ())
      else
        let r := dispatch env transport netloc now_str rmap
        (summ, r.1,
          match r.2 with
          | none => Except.ok ()
          | some e => Except.error e)

/-- Everything observable about one run. -/
structure RunResult where
  fetchedUrls : List String
  savedState : Option Store
  summary : Option Message
  sent : List (String × SchoolMap × Message)
  outcome : Except String Unit
deriving Repr

/-- The whole of `main()`. Inputs: the sources file content (absent file ⇒
exception), the parsed previous state, the subscriptions workbook (absent
file ⇒ exception), the external fetch, HTML parser and SHA-256 digest,
the per-iteration clock, the environment, the SMTP transport,
`urlparse(...).netloc`, and the formatted current time. The loop feeds each
source's `try`-block outcome to `runStep`; `save_state` happens before any
mail is sent; a mail exception after that leaves the saved state in place
but fails the run. -/
def mainRun (sourcesFile : Option (List String)) (state0 : Store)
    (subsFile : Option Workbook) (fetchFn : String → Except String String)
    (parseFn : String → Node) (hashFn : String → String) (tsFn : Nat → Int)
    (env : Env) (transport : Message → Except String Unit)
    (netloc : String → String) (now_str : String) : RunResult :=
  match load_sources sourcesFile with
  | Except.error e => ⟨[], none, none, [], Except.error e⟩
  | Except.ok sources =>
    match load_subscriptions subsFile with
    | Except.error e => ⟨[], none, none, [], Except.error e⟩
    | Except.ok s2e =>
      let iters : List Iter := sources.enum.map (fun p =>
        (p.2, tsFn p.1,
          (fetchFn p.2.url).map (fun h => hashFn (normalize_html (parseFn h)))))
      let r := runLoop (state0, [], []) iters
      let fetched := sources.map (fun it => it.url)
      let n := notifyPhase env transport netloc now_str r.2.1 r.2.2 s2e
      ⟨fetched, some r.1, n.1, n.2.1, n.2.2⟩

/-- Remove every attribute from every element of a forest (the hyperlink
targets in particular), leaving tags, text and structure intact. -/
def stripAttrs : Node → Node
  | .nilN => .nilN
  | .text s sib => .text s (stripAttrs sib)
  | .elem t _ cs sib => .elem t [] (stripAttrs cs) (stripAttrs sib)

/-- Character-wise `startswith`. -/
def startsWithL : List Char → List Char → Bool
  | [], _ => true
  | _ :: _, [] => false
  | p :: ps, c :: cs => p = c && startsWithL ps cs

/-- Modelled from the spec: a URL "has an `http`/`https` scheme", i.e. starts
with `http://` or `https://`. Used to compare `load_sources` against the
spec's claimed URL filtering, which is absent from the code. -/
def hasHTTPScheme (u : String) : Bool :=
  startsWithL "http://".data u.data || startsWithL "https://".data u.data

/-- The privacy invariant of `email_to_school_urls`: every school listed in a
recipient's school map is one that recipient subscribed to. -/
def recipInv (s2e : SubsMap) (m : RecipMap) : Prop :=
  ∀ q ∈ m, ∀ p ∈ q.2, q.1 ∈ (lookupKV s2e p.1).getD []

theorem lookupKV_dictSet_self {α : Type} (m : List (String × α)) (k : String) (v : α) :
    lookupKV (dictSet m k v) k = some v := by
  induction m with
  | nil => simp [dictSet, lookupKV]
  | cons p rest ih =>
    obtain ⟨k', v'⟩ := p
    by_cases h : k' = k
    · simp [dictSet, lookupKV, h]
    · simp [dictSet, lookupKV, h, ih]

theorem lookupKV_dictSet_ne {α : Type} (m : List (String × α)) (k k' : String) (v : α)
    (h : k' ≠ k) : lookupKV (dictSet m k v) k' = lookupKV m k' := by
  induction m with
  | nil => simp [dictSet, lookupKV, Ne.symm h]
  | cons p rest ih =>
    obtain ⟨k'', v''⟩ := p
    by_cases h2 : k'' = k
    · subst h2
      simp [dictSet, lookupKV, Ne.symm h]
    · simp [dictSet, lookupKV, h2, ih]

theorem lookupKV_addUpdate_self (ups : Updates) (n u : String) :
    lookupKV (addUpdate ups n u) n = some (upsGet ups n ++ [u]) := by
  induction ups with
  | nil => simp [addUpdate, lookupKV, upsGet]
  | cons p rest ih =>
    obtain ⟨k, us⟩ := p
    by_cases h : k = n
    · simp [addUpdate, lookupKV, upsGet, h]
    · simp [addUpdate, lookupKV, upsGet, h] at ih ⊢
      exact ih

theorem lookupKV_addUpdate_ne (ups : Updates) (n u n' : String) (h : n' ≠ n) :
    lookupKV (addUpdate ups n u) n' = lookupKV ups n' := by
  induction ups with
  | nil => simp [addUpdate, lookupKV, Ne.symm h]
  | cons p rest ih =>
    obtain ⟨k, us⟩ := p
    by_cases h2 : k = n
    · subst h2
      simp [addUpdate, lookupKV, Ne.symm h]
    · simp [addUpdate, lookupKV, h2, ih]

theorem mem_upsGet_addUpdate (ups : Updates) (n u n' u' : String) :
    u' ∈ upsGet (addUpdate ups n u) n' ↔
      u' ∈ upsGet ups n' ∨ (n' = n ∧ u' = u) := by
  by_cases h : n' = n
  · subst h
    rw [upsGet, lookupKV_addUpdate_self]
    simp
  · rw [upsGet, lookupKV_addUpdate_ne ups n u n' h]
    simp [upsGet, h]

theorem fpOf_dictSet_self (st : Store) (u : String) (e : StateEntry) :
    fpOf (dictSet st u e) u = e.fp := by
  rw [fpOf, lookupKV_dictSet_self]
  rfl

theorem fpOf_dictSet_ne (st : Store) (u u' : String) (e : StateEntry) (h : u' ≠ u) :
    fpOf (dictSet st u e) u' = fpOf st u' := by
  rw [fpOf, lookupKV_dictSet_ne st u u' e h, fpOf]

theorem runStep_fp_ne (st : Store) (ups : Updates) (fails : Failures) (x : Iter)
    (u : String) (h : x.1.url ≠ u) :
    fpOf (runStep (st, ups, fails) x).1 u = fpOf st u := by
  obtain ⟨item, ts, res⟩ := x
  cases res with
  | ok f =>
    simp only [runStep]
    exact fpOf_dictSet_ne _ _ _ _ (Ne.symm h)
  | error e =>
    simp only [runStep]
    exact fpOf_dictSet_ne _ _ _ _ (Ne.symm h)

theorem runStep_ups_mem_ne (st : Store) (ups : Updates) (fails : Failures) (x : Iter)
    (u n : String) (h : x.1.url ≠ u) :
    (u ∈ upsGet (runStep (st, ups, fails) x).2.1 n ↔ u ∈ upsGet ups n) := by
  obtain ⟨item, ts, res⟩ := x
  cases res with
  | ok f =>
    simp only [runStep]
    by_cases hc : pyTruthy (fpOf st item.url) ∧ fpOf st item.url ≠ some f
    · rw [if_pos hc]
      rw [mem_upsGet_addUpdate]
      simp [Ne.symm h]
    · rw [if_neg hc]
  | error e =>
    simp only [runStep]

theorem runLoop_fp_ne (u : String) :
    ∀ (iters : List Iter) (acc : Store × Updates × Failures),
      (∀ y ∈ iters, y.1.url ≠ u) →
      fpOf (runLoop acc iters).1 u = fpOf acc.1 u
  | [], _, _ => rfl
  | x :: l, acc, h => by
    obtain ⟨st, ups, fails⟩ := acc
    have hrest := runLoop_fp_ne u l (runStep (st, ups, fails) x)
      (fun y hy => h y (List.mem_cons_of_mem x hy))
    have hstep := runStep_fp_ne st ups fails x u (h x (List.mem_cons_self x l))
    calc fpOf (runLoop (st, ups, fails) (x :: l)).1 u
        = fpOf (runLoop (runStep (st, ups, fails) x) l).1 u := rfl
      _ = fpOf (runStep (st, ups, fails) x).1 u := hrest
      _ = fpOf st u := hstep

theorem runLoop_ups_mem_ne (u n : String) :
    ∀ (iters : List Iter) (acc : Store × Updates × Failures),
      (∀ y ∈ iters, y.1.url ≠ u) →
      (u ∈ upsGet (runLoop acc iters).2.1 n ↔ u ∈ upsGet acc.2.1 n)
  | [], _, _ => Iff.rfl
  | x :: l, acc, h => by
    obtain ⟨st, ups, fails⟩ := acc
    have hrest := runLoop_ups_mem_ne u n l (runStep (st, ups, fails) x)
      (fun y hy => h y (List.mem_cons_of_mem x hy))
    have hstep := runStep_ups_mem_ne st ups fails x u n (h x (List.mem_cons_self x l))
    calc (u ∈ upsGet (runLoop (st, ups, fails) (x :: l)).2.1 n)
        ↔ u ∈ upsGet (runLoop (runStep (st, ups, fails) x) l).2.1 n := Iff.rfl
      _ ↔ u ∈ upsGet (runStep (st, ups, fails) x).2.1 n := hrest
      _ ↔ u ∈ upsGet ups n := hstep

theorem runLoop_append (acc : Store × Updates × Failures) (l₁ l₂ : List Iter) :
    runLoop acc (l₁ ++ l₂) = runLoop (runLoop acc l₁) l₂ := by
  simp [runLoop, List.foldl_append]

/-- C1. For a source whose URL has a present (truthy) stored fingerprint and
whose URL is not fetched by any other iteration of the run (source identity
is the URL), a successful fetch leaves the store entry for that URL holding
the fresh fingerprint, and the run emits a `ChangeEvent` for the source
(the source's URL is recorded under its school in `updates_by_school`) if
and only if the fresh fingerprint differs from the stored one. -/
theorem changed_iff_differs (st0 : Store) (pre post : List Iter)
    (item : SourceItem) (ts : Int) (f s : String)
    (hpre : ∀ y ∈ pre, y.1.url ≠ item.url)
    (hpost : ∀ y ∈ post, y.1.url ≠ item.url)
    (hs : fpOf st0 item.url = some s) (hne : s ≠ "") :
    fpOf (runLoop (st0, [], []) (pre ++ (item, ts, Except.ok f) :: post)).1 item.url
        = some f ∧
      (item.url ∈
          upsGet (runLoop (st0, [], []) (pre ++ (item, ts, Except.ok f) :: post)).2.1
            item.name ↔
        s ≠ f) := by
  rw [runLoop_append]
  rcases hacc : runLoop (st0, [], []) pre with ⟨st1, ups1, fails1⟩
  have hfp1 : fpOf st1 item.url = some s := by
    have := runLoop_fp_ne item.url pre (st0, [], []) hpre
    rw [hacc] at this
    exact this.trans hs
  have hups1 : item.url ∉ upsGet ups1 item.name := by
    have := runLoop_ups_mem_ne item.url item.name pre (st0, [], []) hpre
    rw [hacc] at this
    rw [this]
    simp [upsGet, lookupKV]
  have hstep : runLoop (st1, ups1, fails1) ((item, ts, Except.ok f) :: post)
      = runLoop (runStep (st1, ups1, fails1) (item, ts, Except.ok f)) post := rfl
  rw [hstep]
  simp only [runStep, hfp1]
  by_cases hdiff : s = f
  · subst hdiff
    rw [if_neg (by simp [pyTruthy])]
    constructor
    · have := runLoop_fp_ne item.url post
        (dictSet st1 item.url ⟨some s, ts, none⟩, ups1, fails1) hpost
      rw [this]
      exact fpOf_dictSet_self st1 item.url ⟨some s, ts, none⟩
    · have := runLoop_ups_mem_ne item.url item.name post
        (dictSet st1 item.url ⟨some s, ts, none⟩, ups1, fails1) hpost
      rw [this]
      simp [hups1]
  · rw [if_pos (by simp [pyTruthy, hne, hdiff])]
    constructor
    · have := runLoop_fp_ne item.url post
        (dictSet st1 item.url ⟨some f, ts, none⟩,
          addUpdate ups1 item.name item.url, fails1) hpost
      rw [this]
      exact fpOf_dictSet_self st1 item.url ⟨some f, ts, none⟩
    · have := runLoop_ups_mem_ne item.url item.name post
        (dictSet st1 item.url ⟨some f, ts, none⟩,
          addUpdate ups1 item.name item.url, fails1) hpost
      rw [this]
      rw [mem_upsGet_addUpdate]
      simp [hdiff]

theorem changed_iff_differs_witness :
    fpOf [("u", ⟨some "a", 0, none⟩)] "u" = some "a" ∧
      fpOf (runLoop ([("u", ⟨some "a", 0, none⟩)], [], [])
          [(⟨"N", "u"⟩, 1, Except.ok "b")]).1 "u" = some "b" ∧
      ("u" ∈ upsGet (runLoop ([("u", ⟨some "a", 0, none⟩)], [], [])
          [(⟨"N", "u"⟩, 1, Except.ok "b")]).2.1 "N" ↔ ("a" : String) ≠ "b") :=
  ⟨rfl,
    (changed_iff_differs [("u", ⟨some "a", 0, none⟩)] [] [] ⟨"N", "u"⟩ 1 "b" "a"
      (fun _ hy => nomatch hy) (fun _ hy => nomatch hy) rfl (by decide)).1,
    (changed_iff_differs [("u", ⟨some "a", 0, none⟩)] [] [] ⟨"N", "u"⟩ 1 "b" "a"
      (fun _ hy => nomatch hy) (fun _ hy => nomatch hy) rfl (by decide)).2⟩

/-- C2. For a source whose URL has no stored fingerprint before the run and
whose URL is not fetched by any other iteration of the run, a successful
fetch stores the fresh fingerprint as a baseline and the run never emits a
`ChangeEvent` for that source: its URL is not recorded under its school in
`updates_by_school`. -/
theorem baseline_no_event (st0 : Store) (pre post : List Iter)
    (item : SourceItem) (ts : Int) (f : String)
    (hpre : ∀ y ∈ pre, y.1.url ≠ item.url)
    (hpost : ∀ y ∈ post, y.1.url ≠ item.url)
    (hs : fpOf st0 item.url = none) :
    fpOf (runLoop (st0, [], []) (pre ++ (item, ts, Except.ok f) :: post)).1 item.url
        = some f ∧
      item.url ∉
        upsGet (runLoop (st0, [], []) (pre ++ (item, ts, Except.ok f) :: post)).2.1
          item.name := by
  rw [runLoop_append]
  rcases hacc : runLoop (st0, [], []) pre with ⟨st1, ups1, fails1⟩
  have hfp1 : fpOf st1 item.url = none := by
    have := runLoop_fp_ne item.url pre (st0, [], []) hpre
    rw [hacc] at this
    exact this.trans hs
  have hups1 : item.url ∉ upsGet ups1 item.name := by
    have := runLoop_ups_mem_ne item.url item.name pre (st0, [], []) hpre
    rw [hacc] at this
    rw [this]
    simp [upsGet, lookupKV]
  have hstep : runLoop (st1, ups1, fails1) ((item, ts, Except.ok f) :: post)
      = runLoop (runStep (st1, ups1, fails1) (item, ts, Except.ok f)) post := rfl
  rw [hstep]
  simp only [runStep, hfp1]
  rw [if_neg (by simp [pyTruthy])]
  constructor
  · have := runLoop_fp_ne item.url post
      (dictSet st1 item.url ⟨some f, ts, none⟩, ups1, fails1) hpost
    rw [this]
    exact fpOf_dictSet_self st1 item.url ⟨some f, ts, none⟩
  · have := runLoop_ups_mem_ne item.url item.name post
      (dictSet st1 item.url ⟨some f, ts, none⟩, ups1, fails1) hpost
    rw [this]
    exact hups1

theorem baseline_no_event_witness :
    fpOf [] "u" = none ∧
      fpOf (runLoop (([] : Store), [], []) [(⟨"N", "u"⟩, 1, Except.ok "a")]).1 "u"
        = some "a" ∧
      "u" ∉ upsGet (runLoop (([] : Store), [], [])
        [(⟨"N", "u"⟩, 1, Except.ok "a")]).2.1 "N" :=
  ⟨rfl,
    (baseline_no_event [] [] [] ⟨"N", "u"⟩ 1 "a"
      (fun _ hy => nomatch hy) (fun _ hy => nomatch hy) rfl).1,
    (baseline_no_event [] [] [] ⟨"N", "u"⟩ 1 "a"
      (fun _ hy => nomatch hy) (fun _ hy => nomatch hy) rfl).2⟩

/-- C3. For a source whose fetch raises (any exception) and whose URL is not
fetched by any other iteration of the run, the fingerprint value stored for
that URL after the run equals the value stored before the run: the failure
branch rewrites the entry but carries the previous fingerprint over. -/
theorem failure_preserves_fp (st0 : Store) (pre post : List Iter)
    (item : SourceItem) (ts : Int) (e : String)
    (hpre : ∀ y ∈ pre, y.1.url ≠ item.url)
    (hpost : ∀ y ∈ post, y.1.url ≠ item.url) :
    fpOf (runLoop (st0, [], []) (pre ++ (item, ts, Except.error e) :: post)).1 item.url
      = fpOf st0 item.url := by
  rw [runLoop_append]
  rcases hacc : runLoop (st0, [], []) pre with ⟨st1, ups1, fails1⟩
  have hfp1 : fpOf st1 item.url = fpOf st0 item.url := by
    have := runLoop_fp_ne item.url pre (st0, [], []) hpre
    rw [hacc] at this
    exact this
  have hstep : runLoop (st1, ups1, fails1) ((item, ts, Except.error e) :: post)
      = runLoop (runStep (st1, ups1, fails1) (item, ts, Except.error e)) post := rfl
  rw [hstep]
  simp only [runStep]
  have := runLoop_fp_ne item.url post
    (dictSet st1 item.url ⟨fpOf st1 item.url, ts, some e⟩, ups1,
      fails1 ++ [(item.name, item.url, e)]) hpost
  rw [this]
  rw [fpOf_dictSet_self st1 item.url ⟨fpOf st1 item.url, ts, some e⟩]
  exact hfp1

theorem failure_preserves_fp_witness :
    fpOf (runLoop ([("u", ⟨some "a", 0, none⟩)], [], [])
        [(⟨"N", "u"⟩, 1, Except.error "timeout")]).1 "u"
      = fpOf [("u", ⟨some "a", 0, none⟩)] "u" :=
  failure_preserves_fp [("u", ⟨some "a", 0, none⟩)] [] [] ⟨"N", "u"⟩ 1 "timeout"
    (fun _ hy => nomatch hy) (fun _ hy => nomatch hy)

/-- C9. If the first-ever fetch of a URL fails, the step creates a store
record for that URL whose fingerprint field is `none`, emits nothing; a
later successful fetch of that URL then takes the baseline branch: it also
emits nothing and stores the fresh fingerprint. Moreover a success step can
only grow `updates_by_school` when the state it sees holds a present,
non-empty fingerprint for that URL. -/
theorem first_failure_then_baseline (st : Store) (ups : Updates) (fails : Failures)
    (item : SourceItem) (ts ts' : Int) (e f : String)
    (h : lookupKV st item.url = none) :
    lookupKV (runStep (st, ups, fails) (item, ts, Except.error e)).1 item.url
        = some ⟨none, ts, some e⟩ ∧
      (runStep (st, ups, fails) (item, ts, Except.error e)).2.1 = ups ∧
      (runStep (runStep (st, ups, fails) (item, ts, Except.error e))
          (item, ts', Except.ok f)).2.1 = ups ∧
      fpOf (runStep (runStep (st, ups, fails) (item, ts, Except.error e))
          (item, ts', Except.ok f)).1 item.url = some f ∧
      (∀ (st' : Store) (ups' : Updates) (fails' : Failures) (it : SourceItem)
          (ts2 : Int) (g : String),
        (runStep (st', ups', fails') (it, ts2, Except.ok g)).2.1 ≠ ups' →
        ∃ s, fpOf st' it.url = some s ∧ s ≠ "") := by
  have hfp : fpOf st item.url = none := by rw [fpOf, h]; rfl
  refine ⟨?_, rfl, ?_, ?_, ?_⟩
  · simp only [runStep, hfp]
    exact lookupKV_dictSet_self st item.url ⟨none, ts, some e⟩
  · simp only [runStep, hfp]
    rw [if_neg (by simp [pyTruthy, fpOf_dictSet_self st item.url ⟨none, ts, some e⟩])]
  · simp only [runStep, hfp]
    exact fpOf_dictSet_self _ item.url ⟨some f, ts', none⟩
  · intro st' ups' fails' it ts2 g hne
    by_cases hc : pyTruthy (fpOf st' it.url) ∧ fpOf st' it.url ≠ some g
    · rcases hfp' : fpOf st' it.url with _ | s
      · rw [hfp'] at hc
        simp [pyTruthy] at hc
      · refine ⟨s, rfl, ?_⟩
        rw [hfp'] at hc
        intro hs0
        subst hs0
        simp [pyTruthy] at hc
    · exfalso
      apply hne
      simp only [runStep]
      rw [if_neg hc]

theorem first_failure_then_baseline_witness :
    lookupKV ([] : Store) "u" = none ∧
      lookupKV (runStep (([] : Store), [], []) (⟨"N", "u"⟩, 1, Except.error "t/o")).1 "u"
        = some ⟨none, 1, some "t/o"⟩ ∧
      (runStep (([] : Store), [], []) (⟨"N", "u"⟩, 1, Except.error "t/o")).2.1 = [] ∧
      (runStep (runStep (([] : Store), [], []) (⟨"N", "u"⟩, 1, Except.error "t/o"))
        (⟨"N", "u"⟩, 2, Except.ok "f")).2.1 = [] ∧
      fpOf (runStep (runStep (([] : Store), [], []) (⟨"N", "u"⟩, 1, Except.error "t/o"))
        (⟨"N", "u"⟩, 2, Except.ok "f")).1 "u" = some "f" :=
  ⟨rfl,
    (first_failure_then_baseline [] [] [] ⟨"N", "u"⟩ 1 2 "t/o" "f" rfl).1,
    (first_failure_then_baseline [] [] [] ⟨"N", "u"⟩ 1 2 "t/o" "f" rfl).2.1,
    (first_failure_then_baseline [] [] [] ⟨"N", "u"⟩ 1 2 "t/o" "f" rfl).2.2.1,
    (first_failure_then_baseline [] [] [] ⟨"N", "u"⟩ 1 2 "t/o" "f" rfl).2.2.2.1⟩

theorem send_email_to_ok_fields (env : Env) (transport : Message → Except String Unit)
    (subject body to_email : String) (msg : Message)
    (h : send_email_to env transport subject body to_email = Except.ok msg) :
    msg.toAddr = to_email ∧ msg.rcpt = [to_email] := by
  unfold send_email_to at h
  by_cases hc : pyTruthy env.smtp_user ∧ pyTruthy env.smtp_pass
  · rw [if_pos hc] at h
    simp only [] at h
    split at h
    · cases h
      exact ⟨rfl, rfl⟩
    · cases h
  · rw [if_neg hc] at h
    cases h

theorem dispatch_sent_mem (env : Env) (transport : Message → Except String Unit)
    (netloc : String → String) (now_str : String) :
    ∀ (rmap : RecipMap) (em : String) (smap : SchoolMap) (msg : Message),
      (em, smap, msg) ∈ (dispatch env transport netloc now_str rmap).1 →
      (em, smap) ∈ rmap ∧ msg.toAddr = em ∧ msg.rcpt = [em]
  | [], _, _, _, h => nomatch h
  | (em', smap') :: rest, em, smap, msg, h => by
    simp only [dispatch] at h
    rcases hs : send_email_to env transport (recipSubject smap')
        (recipBody netloc now_str smap') em' with _ | m
    · rw [hs] at h
      exact nomatch h
    · rw [hs] at h
      rcases List.mem_cons.mp h with heq | hmem
      · obtain ⟨he1, he2⟩ := Prod.mk.injEq .. ▸ heq
        obtain ⟨he2, he3⟩ := Prod.mk.injEq .. ▸ he2
        subst he1; subst he2; subst he3
        obtain ⟨h1, h2⟩ := send_email_to_ok_fields env transport _ _ em msg hs
        exact ⟨List.mem_cons_self _ _, h1, h2⟩
      · obtain ⟨h1, h2⟩ := dispatch_sent_mem env transport netloc now_str rest em smap msg hmem
        exact ⟨List.mem_cons_of_mem _ h1, h2⟩

theorem extendSchool_mem (sm : SchoolMap) (s : String) (urls : List String) :
    ∀ p ∈ extendSchool sm s urls, p.1 = s ∨ p ∈ sm := by
  induction sm with
  | nil =>
    intro p hp
    simp [extendSchool] at hp
    subst hp
    exact Or.inl rfl
  | cons q rest ih =>
    obtain ⟨k, us⟩ := q
    intro p hp
    by_cases h : k = s
    · subst h
      simp [extendSchool] at hp
      rcases hp with hp | hp
      · subst hp
        exact Or.inl rfl
      · exact Or.inr (List.mem_cons_of_mem _ hp)
    · simp [extendSchool, h] at hp
      rcases hp with hp | hp
      · subst hp
        exact Or.inr (List.mem_cons_self _ _)
      · rcases ih p hp with h1 | h1
        · exact Or.inl h1
        · exact Or.inr (List.mem_cons_of_mem _ h1)

theorem addRecip_inv (s2e : SubsMap) (em0 school : String) (urls : List String)
    (hem : em0 ∈ (lookupKV s2e school).getD []) :
    ∀ (m : RecipMap), recipInv s2e m → recipInv s2e (addRecip m em0 school urls) := by
  intro m
  induction m with
  | nil =>
    intro _ q hq p hp
    simp [addRecip] at hq
    subst hq
    simp at hp
    subst hp
    exact hem
  | cons r rest ih =>
    obtain ⟨k, sm⟩ := r
    intro hm q hq p hp
    have hmrest : recipInv s2e rest := fun q' hq' => hm q' (List.mem_cons_of_mem _ hq')
    by_cases h : k = em0
    · subst h
      simp only [addRecip, if_pos rfl] at hq
      rcases List.mem_cons.mp hq with hq1 | hq1
      · subst hq1
        rcases extendSchool_mem sm school urls p hp with h1 | h1
        · rw [h1]
          exact hem
        · exact hm (k, sm) (List.mem_cons_self _ _) p h1
      · exact hmrest q hq1 p hp
    · simp only [addRecip, if_neg h] at hq
      rcases List.mem_cons.mp hq with hq1 | hq1
      · subst hq1
        exact hm (k, sm) (List.mem_cons_self _ _) p hp
      · exact ih hmrest q hq1 p hp

theorem emailsFold_inv (s2e : SubsMap) (school : String) (urls : List String) :
    ∀ (ems : List String), (∀ em ∈ ems, em ∈ (lookupKV s2e school).getD []) →
      ∀ (m : RecipMap), recipInv s2e m →
        recipInv s2e (ems.foldl (fun m em => addRecip m em school urls) m)
  | [], _, _, hm => hm
  | em :: rest, h, m, hm => by
    have h1 := addRecip_inv s2e em school urls (h em (List.mem_cons_self _ _)) m hm
    exact emailsFold_inv s2e school urls rest
      (fun e he => h e (List.mem_cons_of_mem _ he)) (addRecip m em school urls) h1

theorem buildRecipMap_inv_aux (s2e : SubsMap) :
    ∀ (ups : Updates) (m : RecipMap), recipInv s2e m →
      recipInv s2e (ups.foldl (fun m p =>
        ((lookupKV s2e p.1).getD []).foldl (fun m em => addRecip m em p.1 p.2) m) m)
  | [], _, hm => hm
  | p :: rest, m, hm => by
    have h1 := emailsFold_inv s2e p.1 p.2 ((lookupKV s2e p.1).getD [])
      (fun _ he => he) m hm
    exact buildRecipMap_inv_aux s2e rest _ h1

theorem buildRecipMap_inv (ups : Updates) (s2e : SubsMap) :
    recipInv s2e (buildRecipMap ups s2e) :=
  buildRecipMap_inv_aux s2e ups [] (fun _ hq => nomatch hq)

/-- C5. In per-subscriber mode every message handed to the transport names
exactly one recipient — its `To` header is that recipient and the envelope
recipient list is the singleton of that recipient — and every school whose
changed URLs appear in the recipient's message is a school that recipient
subscribed to in `school_to_emails`. -/
theorem per_subscriber_privacy (env : Env) (transport : Message → Except String Unit)
    (netloc : String → String) (now_str : String) (ups : Updates) (s2e : SubsMap)
    (em : String) (smap : SchoolMap) (msg : Message)
    (h : (em, smap, msg) ∈
      (dispatch env transport netloc now_str (buildRecipMap ups s2e)).1) :
    msg.toAddr = em ∧ msg.rcpt = [em] ∧
      ∀ p ∈ smap, em ∈ (lookupKV s2e p.1).getD [] := by
  obtain ⟨hmem, hto, hrcpt⟩ :=
    dispatch_sent_mem env transport netloc now_str (buildRecipMap ups s2e) em smap msg h
  exact ⟨hto, hrcpt, fun p hp => buildRecipMap_inv ups s2e (em, smap) hmem p hp⟩

theorem per_subscriber_privacy_witness :
    ("a@x", [("S", ["u1"])],
        Message.mk "me@x" "a@x" ["a@x"] (recipSubject [("S", ["u1"])])
          (recipBody (fun _ => "") "t" [("S", ["u1"])])) ∈
      (dispatch ⟨some "me@x", some "pw", none, none⟩ (fun _ => Except.ok ())
        (fun _ => "") "t" (buildRecipMap [("S", ["u1"])] [("S", ["a@x"])])).1 ∧
      (Message.mk "me@x" "a@x" ["a@x"] (recipSubject [("S", ["u1"])])
          (recipBody (fun _ => "") "t" [("S", ["u1"])])).toAddr = "a@x" ∧
      (Message.mk "me@x" "a@x" ["a@x"] (recipSubject [("S", ["u1"])])
          (recipBody (fun _ => "") "t" [("S", ["u1"])])).rcpt = ["a@x"] ∧
      ∀ p ∈ [("S", ["u1"])], "a@x" ∈ (lookupKV [("S", ["a@x"])] p.1).getD [] :=
  ⟨by decide,
    per_subscriber_privacy ⟨some "me@x", some "pw", none, none⟩ (fun _ => Except.ok ())
      (fun _ => "") "t" [("S", ["u1"])] [("S", ["a@x"])] "a@x" [("S", ["u1"])]
      (Message.mk "me@x" "a@x" ["a@x"] (recipSubject [("S", ["u1"])])
        (recipBody (fun _ => "") "t" [("S", ["u1"])]))
      (by decide)⟩

/-- C4 counterexample. With valid credentials and a transport that fails for
the first recipient, the per-subscriber phase of a run with one change and
two subscribers sends nothing at all — the second recipient is never
attempted — and the phase ends in the transport's error: the failure both
prevents the remaining send and fails the run. -/
theorem send_failure_aborts_cex :
    notifyPhase ⟨some "me@x", some "pw", none, none⟩
        (fun m => if m.toAddr = "a@x" then Except.error "boom" else Except.ok ())
        (fun _ => "") "t" [("S", ["u1"])] [] [("S", ["a@x", "b@x"])] =
      (none, [], Except.error "boom") := rfl

/-- C4 (amended). In per-subscriber mode the send loop has no handler: when
`send_email_to` raises for the first pending recipient, the exception
propagates — no message is recorded as sent for this loop, the remaining
recipients are not attempted, and the loop's (hence the run's) outcome is
that error. -/
theorem send_failure_aborts (env : Env) (transport : Message → Except String Unit)
    (netloc : String → String) (now_str : String) (em : String) (smap : SchoolMap)
    (rest : RecipMap) (e : String)
    (h : send_email_to env transport (recipSubject smap)
      (recipBody netloc now_str smap) em = Except.error e) :
    dispatch env transport netloc now_str ((em, smap) :: rest) = ([], some e) := by
  simp only [dispatch, h]

theorem send_failure_aborts_witness :
    send_email_to ⟨some "me@x", some "pw", none, none⟩
        (fun m => if m.toAddr = "a@x" then Except.error "boom" else Except.ok ())
        (recipSubject [("S", ["u1"])]) (recipBody (fun _ => "") "t" [("S", ["u1"])])
        "a@x" = Except.error "boom" ∧
      dispatch ⟨some "me@x", some "pw", none, none⟩
        (fun m => if m.toAddr = "a@x" then Except.error "boom" else Except.ok ())
        (fun _ => "") "t" [("a@x", [("S", ["u1"])]), ("b@x", [("S", ["u1"])])] =
        ([], some "boom") :=
  ⟨rfl,
    send_failure_aborts ⟨some "me@x", some "pw", none, none⟩
      (fun m => if m.toAddr = "a@x" then Except.error "boom" else Except.ok ())
      (fun _ => "") "t" "a@x" [("S", ["u1"])] [("b@x", [("S", ["u1"])])] "boom" rfl⟩

/-- C6. When the run's change set is empty and the always-send summary
override is disabled (the stripped `ALWAYS_SEND_SUMMARY` is not `"1"`), the
notification phase sends no email of any kind: no summary message, no
per-subscriber message, and it ends without error. -/
theorem no_mail_when_quiet (env : Env) (transport : Message → Except String Unit)
    (netloc : String → String) (now_str : String) (fails : Failures) (s2e : SubsMap)
    (h : pyStrip (env.always_send_summary.getD "") ≠ "1") :
    notifyPhase env transport netloc now_str [] fails s2e =
      (none, [], Except.ok ()) := by
  unfold notifyPhase send_summary_email
  rw [if_pos h]
  rfl

theorem no_mail_when_quiet_witness :
    pyStrip ((some "0" : Option String).getD "") ≠ "1" ∧
      notifyPhase ⟨some "me@x", some "pw", some "0", some "op@x"⟩
        (fun _ => Except.ok ()) (fun _ => "") "t" [] [("N", "u", "err")] [] =
        (none, [], Except.ok ()) :=
  ⟨by decide,
    no_mail_when_quiet ⟨some "me@x", some "pw", some "0", some "op@x"⟩
      (fun _ => Except.ok ()) (fun _ => "") "t" [("N", "u", "err")] [] (by decide)⟩

/-- C7 counterexample. `load_sources` performs no URL-scheme validation: the
line `Alpha notaurl` yields a `SourceItem` whose URL starts with neither
`http://` nor `https://`, refuting "every SourceItem returned has a URL
starting with http:// or https://". -/
theorem load_sources_no_scheme_check_cex :
    loadSourceLines ["Alpha notaurl"] = [⟨"Alpha", "notaurl"⟩] ∧
      hasHTTPScheme "notaurl" = false := by decide

/-- C7 (amended). `load_sources` skips blank lines and `#`-comment lines,
splits each remaining line on runs of whitespace, skips lines with fewer
than two fields, and returns the first field as the label and the second as
the URL (further fields are ignored); no URL scheme filtering is applied.
Soundness direction: every returned item arises this way from some line. -/
theorem load_sources_shape :
    ∀ (ls : List String) (it : SourceItem), it ∈ loadSourceLines ls →
      ∃ ln ∈ ls, (pyStripL ln.data).isEmpty = false ∧
        startsHash (pyStripL ln.data) = false ∧
        ∃ a b rest, splitWS (pyStripL ln.data) = a :: b :: rest ∧
          it.name = ⟨pyStripL a⟩ ∧ it.url = ⟨pyStripL b⟩
  | [], it, h => nomatch h
  | ln :: ls, it, h => by
    by_cases h1 : (pyStripL ln.data).isEmpty
    · rw [loadSourceLines, if_pos h1] at h
      obtain ⟨ln', h2, h3⟩ := load_sources_shape ls it h
      exact ⟨ln', List.mem_cons_of_mem _ h2, h3⟩
    · by_cases h2 : startsHash (pyStripL ln.data)
      · rw [loadSourceLines, if_neg h1, if_pos h2] at h
        obtain ⟨ln', h3, h4⟩ := load_sources_shape ls it h
        exact ⟨ln', List.mem_cons_of_mem _ h3, h4⟩
      · rcases h3 : splitWS (pyStripL ln.data) with _ | ⟨a, _ | ⟨b, rest⟩⟩
        · rw [loadSourceLines, if_neg h1, if_neg h2, h3] at h
          obtain ⟨ln', h4, h5⟩ := load_sources_shape ls it h
          exact ⟨ln', List.mem_cons_of_mem _ h4, h5⟩
        · rw [loadSourceLines, if_neg h1, if_neg h2, h3] at h
          obtain ⟨ln', h4, h5⟩ := load_sources_shape ls it h
          exact ⟨ln', List.mem_cons_of_mem _ h4, h5⟩
        · rw [loadSourceLines, if_neg h1, if_neg h2, h3] at h
          rcases List.mem_cons.mp h with heq | hmem
          · subst heq
            refine ⟨ln, List.mem_cons_self _ _, by simp [h1], by simp [h2],
              a, b, rest, h3, rfl, rfl⟩
          · obtain ⟨ln', h4, h5⟩ := load_sources_shape ls it hmem
            exact ⟨ln', List.mem_cons_of_mem _ h4, h5⟩

theorem load_sources_shape_witness :
    (⟨"A", "http://x"⟩ : SourceItem) ∈ loadSourceLines ["A http://x"] ∧
      ∃ ln ∈ ["A http://x"], (pyStripL ln.data).isEmpty = false ∧
        startsHash (pyStripL ln.data) = false ∧
        ∃ a b rest, splitWS (pyStripL ln.data) = a :: b :: rest ∧
          (⟨"A", "http://x"⟩ : SourceItem).name = ⟨pyStripL a⟩ ∧
          (⟨"A", "http://x"⟩ : SourceItem).url = ⟨pyStripL b⟩ :=
  ⟨by decide, load_sources_shape ["A http://x"] ⟨"A", "http://x"⟩ (by decide)⟩

/-- C8 counterexample. On a page containing one hyperlink with a long,
non-fragment, non-script anchor (`<a href="https://example.edu/p1">Admissions
Notice 2026</a>`), `normalize_html` emits only the anchor's visible text; the
link's href appears nowhere in the output, refuting "emit one line per
qualifying link as title + separator + href". -/
theorem normalize_no_link_extraction_cex :
    normalize_html (Node.elem "body" []
        (Node.elem "a" [("href", "https://example.edu/p1")]
          (Node.text "Admissions Notice 2026" Node.nilN) Node.nilN) Node.nilN) =
      "Admissions Notice 2026" ∧
      ¬ ("https://example.edu/p1".data <:+:
        (normalize_html (Node.elem "body" []
          (Node.elem "a" [("href", "https://example.edu/p1")]
            (Node.text "Admissions Notice 2026" Node.nilN) Node.nilN) Node.nilN)).data) := by
  constructor
  · decide
  · decide

theorem pieces_stripBad_stripAttrs (n : Node) :
    pieces (stripBad (stripAttrs n)) = pieces (stripBad n) := by
  induction n with
  | nilN => rfl
  | text s sib ih => simp [stripAttrs, stripBad, pieces, ih]
  | elem t a cs sib ihc ihs =>
    by_cases h : t = "script" ∨ t = "style" ∨ t = "noscript"
    · simp [stripAttrs, stripBad, h, ihs]
    · simp [stripAttrs, stripBad, h, pieces, ihc, ihs]

/-- C8 (amended). For page-like input the normalizer performs no link
extraction at all: its output never depends on element attributes (hyperlink
targets included) — it always emits the visible-text rendition (scripts,
styles and noscript removed, lines stripped, blank lines dropped, first 400
lines kept), whether or not the page contains qualifying links. -/
theorem normalize_ignores_attrs (doc : Node) :
    normalize_html doc = normalize_html (stripAttrs doc) := by
  unfold normalize_html
  rw [pieces_stripBad_stripAttrs]

/-- C10. `main` loads the subscriptions workbook unconditionally before the
fetch loop: when the subscriptions file is missing (and the sources file is
present), the whole run aborts with the missing-file error — no source URL
is fetched, no state is saved, and no email of any kind is sent — for every
environment, including ones that only want the operator summary. -/
theorem missing_subscriptions_aborts (ls : List String) (state0 : Store)
    (fetchFn : String → Except String String) (parseFn : String → Node)
    (hashFn : String → String) (tsFn : Nat → Int) (env : Env)
    (transport : Message → Except String Unit) (netloc : String → String)
    (now_str : String) :
    mainRun (some ls) state0 none fetchFn parseFn hashFn tsFn env transport
        netloc now_str =
      ⟨[], none, none, [], Except.error "Missing subscriptions.xlsx in repo root"⟩ :=
  rfl
